import Mathlib

/-!
# Task client (`static/js/app.js`)

A shallow embedding of the browser script `static/js/app.js`: the form-submit
handler, `fetchTasks`, `addTaskToList` and `fetchAnalytics`, as functions on an
explicit world state (the part of the document the script touches, the alerts
shown and the requests issued).

Each `async` function is split at its single `await fetch(...)`: a `...Start`
function runs the synchronous part up to the request, a `...Resume` function
runs the continuation on the state the document has when the fetch settles.
An exception thrown inside an `async` function rejects its promise and stops
that function only; it is recorded in the `Completion` of the outcome together
with the state reached so far.
-/

namespace TaskClient

/-! ## Values received from the network -/

/-- A safe integer of the Number type: an integer whose magnitude is below
`2 ^ 53`, the range in which every integer is a double of its own. -/
structure SafeInteger where
  val : Int
  safe : val.natAbs < 9007199254740992
  deriving DecidableEq

/-- The value `response.json()` resolves to. A number is given by the integer
its literal in the body denotes, of any size; the Number it is read as is the
nearest double (`roundToDouble`). Literals that denote a fraction are not part
of this model. The members of an object are kept in the order in which they
are written in the body; strings are sequences of Unicode scalar values. -/
inductive JSON where
  | null
  | bool (b : Bool)
  | num (n : Int)
  | str (s : String)
  | arr (items : List JSON)
  | obj (members : List (String × JSON))

/-- The exceptions the script can raise. `fetchFailed` is the rejection of
`fetch` itself (no response was received), `syntaxError` the rejection of
`response.json()` on a body that is not JSON, `typeError` a property read on
`null` or `undefined`, a call of something that is not a function, or an
object that cannot be converted to a string. -/
inductive JSError where
  | fetchFailed
  | syntaxError
  | typeError
  deriving DecidableEq, Repr

/-- What of a `Response` the script can observe: the `ok` flag, the status code
(never read by the script) and the body, `none` when the body is not valid
JSON. -/
structure Response where
  ok : Bool
  status : Nat
  body : Option JSON

/-- How `await fetch(...)` settles: the promise rejects (network-level
failure), or it resolves to a response. -/
inductive FetchResult where
  | rejected
  | response (r : Response)

/-- The value of the member named `k` of an object written as `ms`: as in
`JSON.parse`, the last member with that name wins. -/
def lookupMember (k : String) (ms : List (String × JSON)) : Option JSON :=
  ms.reverse.lookup k

/-- The property read `v.k`, for a name `k` that no built-in prototype defines
(`name`, `tasks`, `completed` and `pending` are such names). Reading a property
of `null` throws; an object yields its member or `undefined` (`none`); every
other value yields `undefined`. -/
def JSON.getMember (v : JSON) (k : String) : Except JSError (Option JSON) :=
  match v with
  | .null => .error .typeError
  | .obj ms => .ok (lookupMember k ms)
  | _ => .ok none

/-- Whether an object written as `ms` has a member of its own called
`toString`, which hides `Object.prototype.toString`. -/
def hidesToString (ms : List (String × JSON)) : Bool :=
  ms.any (fun m => m.1 == "toString")

/-! ### Numbers

An integer of the body is read as the nearest double and shown as
`Number::toString` writes that double. -/

/-- The number of halvings that bring `v` below `2 ^ 53`: the binary exponent
of the double nearest to `v`. The fuel covers every finite double. -/
def exponentOf : Nat → Nat → Nat
  | 0, _ => 0
  | fuel + 1, v => if v < 2 ^ 53 then 0 else exponentOf fuel (v / 2) + 1

/-- The double nearest to the natural number `v`, ties going to the even
significand, as `JSON.parse` reads an integer literal; `none` is `Infinity`.
The significand has 53 bits and the largest double is
`(2 ^ 53 - 1) * 2 ^ 971`. -/
def roundToDouble (v : Nat) : Option Nat :=
  let e := exponentOf 1024 v
  let q := v / 2 ^ e
  let r := v % 2 ^ e
  let m := if 2 ^ e < 2 * r ∨ (2 * r = 2 ^ e ∧ q % 2 = 1) then q + 1 else q
  if e < 971 ∨ (e = 971 ∧ m < 2 ^ 53) then some (m * 2 ^ e) else none

/-- The digits `s` for which `s * 10 ^ m` reads back as the double `x`, if
there are such digits: they are `x / 10 ^ m` or the next integer, and when both
read back as `x` the one nearer to `x` is taken, the even one on a tie. -/
def shortestAt (x m : Nat) : Option Nat :=
  let lo := x / 10 ^ m
  let okLo := decide (1 ≤ lo) && (roundToDouble (lo * 10 ^ m) == some x)
  let okHi := roundToDouble ((lo + 1) * 10 ^ m) == some x
  if okLo && okHi then
    if x - lo * 10 ^ m < (lo + 1) * 10 ^ m - x then some lo
    else if (lo + 1) * 10 ^ m - x < x - lo * 10 ^ m then some (lo + 1)
    else if lo % 2 = 0 then some lo else some (lo + 1)
  else if okLo then some lo
  else if okHi then some (lo + 1)
  else none

/-- The shortest digits `s` and the number `m` of zeros after them such that
`s * 10 ^ m` reads back as the double `x`: the largest `m`, from the given one
down, for which there are such digits. -/
def shortestFrom (x : Nat) : Nat → Nat × Nat
  | 0 => (x, 0)
  | m + 1 =>
    match shortestAt x (m + 1) with
    | some s => (s, m + 1)
    | none => shortestFrom x m

/-- The exponent form of `Number::toString`, for a number with `n` digits
before the decimal point: the first digit, the other digits after a point, and
`e+` with `n - 1`. -/
def exponentText (digits : List Char) (n : Nat) : String :=
  match digits with
  | [] => ""
  | [d] => String.mk (d :: 'e' :: '+' :: (Nat.repr (n - 1)).data)
  | d :: ds => String.mk (d :: '.' :: (ds ++ 'e' :: '+' :: (Nat.repr (n - 1)).data))

/-- The result of `Number::toString` for a double that is a natural number: the
shortest digits that read back as the double, followed by zeros when the
number has at most 21 digits and in exponent form otherwise. -/
def naturalText (x : Nat) : String :=
  if x = 0 then "0"
  else
    let sm := shortestFrom x (Nat.repr x).length
    let digits := (Nat.repr sm.1).data
    let n := digits.length + sm.2
    if n ≤ 21 then String.mk (digits ++ List.replicate sm.2 '0')
    else exponentText digits n

/-- The string shown for the integer `n` of a body: `n` is read as the nearest
double and that double is converted by `Number::toString`. -/
def numberText (n : Int) : String :=
  match roundToDouble n.natAbs with
  | none => if n < 0 then "-Infinity" else "Infinity"
  | some x => if n < 0 then "-" ++ naturalText x else naturalText x

mutual
/-- The string a value becomes when it is assigned to `textContent`, and also
the string it contributes as an element of `Array.prototype.join`: `null`
gives the empty string, everything else goes through `ToString`. A number is
written as `numberText` says; an array is joined with commas; an object gives
`[object Object]`, unless a member of its own hides `toString`, in which case
the conversion throws. -/
def JSON.text : JSON → Except JSError String
  | .null => .ok ""
  | .bool b => .ok (if b then "true" else "false")
  | .num n => .ok (numberText n)
  | .str s => .ok s
  | .arr xs => JSON.joinText xs
  | .obj ms =>
    if hidesToString ms then .error .typeError else .ok "[object Object]"
/-- The elements of an array converted and joined with commas, as
`Array.prototype.join` does. -/
def JSON.joinText : List JSON → Except JSError String
  | [] => .ok ""
  | [x] => JSON.text x
  | x :: y :: rest =>
    match JSON.text x with
    | .error e => .error e
    | .ok a =>
      match JSON.joinText (y :: rest) with
      | .error e => .error e
      | .ok b => .ok (a ++ "," ++ b)
end

/-- The conversion done by the `textContent` setter: `undefined` and `null`
both give the empty string. -/
def domText : Option JSON → Except JSError String
  | none => .ok ""
  | some v => v.text

/-! ## Requests sent -/

/-- A request handed to `fetch`. -/
structure Request where
  method : String
  url : String
  headers : List (String × String)
  body : Option String
  deriving DecidableEq, Repr

/-- A lower-case hexadecimal digit. -/
def hexDigit (n : Nat) : Char :=
  if n < 10 then Char.ofNat (48 + n) else Char.ofNat (87 + n)

/-- The characters `QuoteJSONString` writes for one character of a string: the
short escapes for backspace, tab, line feed, form feed, carriage return, the
double quote and the backslash, `\uXXXX` for the other characters below the
space, and the character itself otherwise. -/
def quoteChar (c : Char) : List Char :=
  if c.toNat = 8 then [Char.ofNat 92, 'b']
  else if c.toNat = 9 then [Char.ofNat 92, 't']
  else if c.toNat = 10 then [Char.ofNat 92, 'n']
  else if c.toNat = 12 then [Char.ofNat 92, 'f']
  else if c.toNat = 13 then [Char.ofNat 92, 'r']
  else if c.toNat = 34 then [Char.ofNat 92, Char.ofNat 34]
  else if c.toNat = 92 then [Char.ofNat 92, Char.ofNat 92]
  else if c.toNat < 32 then
    [Char.ofNat 92, 'u', hexDigit (c.toNat / 4096 % 16), hexDigit (c.toNat / 256 % 16),
      hexDigit (c.toNat / 16 % 16), hexDigit (c.toNat % 16)]
  else [c]

/-- The JSON string literal for `s` (`QuoteJSONString`), as a list of
characters. -/
def quoteJSONString (s : String) : List Char :=
  Char.ofNat 34 :: (s.data.flatMap quoteChar ++ [Char.ofNat 34])

/-- The result of `JSON.stringify({ name: taskName })`: an opening brace, the
key, a colon, the value and a closing brace, without white space. -/
def stringifyNameRecord (taskName : String) : String :=
  String.mk (Char.ofNat 123 ::
    (quoteJSONString "name" ++ Char.ofNat 58 :: (quoteJSONString taskName ++ [Char.ofNat 125])))

/-- The request `fetch('/api/tasks/', { method: 'POST', ... })` of the submit
handler. -/
def createTaskRequest (taskName : String) : Request :=
  { method := "POST"
    url := "/api/tasks/"
    headers := [("Content-Type", "application/json")]
    body := some (stringifyNameRecord taskName) }

/-- The request `fetch(url)`: a GET without headers or body. -/
def getRequest (url : String) : Request :=
  { method := "GET", url := url, headers := [], body := none }

/-! ## The document and the world -/

/-- The part of the document the script reads or writes: the value of the
input `task-name`, the text of the children of `task-list` in document order,
and the text of `completed-tasks` and `pending-tasks`. -/
structure Dom where
  taskName : String
  taskList : List String
  completedTasks : String
  pendingTasks : String
  deriving DecidableEq, Repr

/-- Everything the script can change: the document, the alerts shown so far
(oldest first), the requests issued so far (oldest first), and whether the
default action of the submit event being dispatched has been cancelled. -/
structure World where
  dom : Dom
  alerts : List String
  requests : List Request
  defaultPrevented : Bool
  deriving DecidableEq, Repr

/-- How a run of a function ends. -/
inductive Completion where
  | normal
  | threw (e : JSError)
  deriving DecidableEq, Repr

/-- The state reached by a run and the way the run ended. -/
structure Outcome where
  world : World
  completion : Completion
  deriving DecidableEq, Repr

/-- Modelled from the spec: the markup of the page is not part of the sources;
the spec says that resetting the form clears the input, so the default value
of the input `task-name` (the value `reset()` restores) is the empty string. -/
def defaultTaskName : String := ""

/-- The call `alert(msg)`. -/
def alert (w : World) (msg : String) : World :=
  { w with alerts := w.alerts ++ [msg] }

/-- The call `fetch(...)` up to the point where the caller awaits it. -/
def sendRequest (w : World) (r : Request) : World :=
  { w with requests := w.requests ++ [r] }

/-- The call `document.getElementById('task-form').reset()`: the input
`task-name`, the control of the form, gets its default value back. -/
def resetForm (w : World) : World :=
  { w with dom := { w.dom with taskName := defaultTaskName } }

/-- The call `taskList.appendChild(listItem)` for a new `li` with the given
text. -/
def appendListItem (w : World) (text : String) : World :=
  { w with dom := { w.dom with taskList := w.dom.taskList ++ [text] } }

/-! ## The script -/

/-- The function `addTaskToList(task)`: `task.name` is read and converted when
it is assigned to `listItem.textContent`, before the item is appended, so a
throw leaves the list as it was. -/
def addTaskToList (w : World) (task : JSON) : Outcome :=
  match task.getMember "name" with
  | .error e => ⟨w, .threw e⟩
  | .ok name =>
    match domText name with
    | .error e => ⟨w, .threw e⟩
    | .ok text => ⟨appendListItem w text, .normal⟩

/-- The call `tasks.forEach(addTaskToList)` on an array: the elements are
rendered in order and the first throw ends the loop. -/
def forEachAddTaskToList (w : World) : List JSON → Outcome
  | [] => ⟨w, .normal⟩
  | task :: rest =>
    match addTaskToList w task with
    | ⟨w1, .normal⟩ => forEachAddTaskToList w1 rest
    | ⟨w1, .threw e⟩ => ⟨w1, .threw e⟩

/-- The call `data.tasks.forEach(addTaskToList)`: only an array has a
`forEach` to call. -/
def renderTasks (w : World) (data : JSON) : Outcome :=
  match data.getMember "tasks" with
  | .error e => ⟨w, .threw e⟩
  | .ok (some (.arr tasks)) => forEachAddTaskToList w tasks
  | .ok _ => ⟨w, .threw .typeError⟩

/-- The two assignments of `fetchAnalytics`, in source order. -/
def renderAnalytics (w : World) (data : JSON) : Outcome :=
  match data.getMember "completed" with
  | .error e => ⟨w, .threw e⟩
  | .ok completed =>
    match domText completed with
    | .error e => ⟨w, .threw e⟩
    | .ok c =>
      let w1 : World := { w with dom := { w.dom with completedTasks := c } }
      match data.getMember "pending" with
      | .error e => ⟨w1, .threw e⟩
      | .ok pending =>
        match domText pending with
        | .error e => ⟨w1, .threw e⟩
        | .ok p => ⟨{ w1 with dom := { w1.dom with pendingTasks := p } }, .normal⟩

/-- The submit handler up to `await fetch(...)`: the default action is
cancelled, the value of `task-name` is read and the POST is issued. -/
def submitStart (w : World) : World :=
  sendRequest { w with defaultPrevented := true } (createTaskRequest w.dom.taskName)

/-- The submit handler from the point where its fetch settles. -/
def submitResume (w : World) : FetchResult → Outcome
  | .rejected => ⟨w, .threw .fetchFailed⟩
  | .response r =>
    if r.ok then
      match r.body with
      | none => ⟨w, .threw .syntaxError⟩
      | some task =>
        match addTaskToList w task with
        | ⟨w1, .normal⟩ => ⟨resetForm w1, .normal⟩
        | ⟨w1, .threw e⟩ => ⟨w1, .threw e⟩
    else ⟨alert w "Failed to add task", .normal⟩

/-- The submit handler run from the event to its end, nothing else happening
in between. -/
def submitHandler (w : World) (res : FetchResult) : Outcome :=
  submitResume (submitStart w) res

/-- The function `fetchTasks` up to `await fetch('/api/tasks/')`. -/
def fetchTasksStart (w : World) : World :=
  sendRequest w (getRequest "/api/tasks/")

/-- The function `fetchTasks` from the point where its fetch settles. -/
def fetchTasksResume (w : World) : FetchResult → Outcome
  | .rejected => ⟨w, .threw .fetchFailed⟩
  | .response r =>
    if r.ok then
      match r.body with
      | none => ⟨w, .threw .syntaxError⟩
      | some data => renderTasks w data
    else ⟨alert w "Failed to fetch tasks", .normal⟩

/-- The function `fetchTasks` run from call to end. -/
def fetchTasks (w : World) (res : FetchResult) : Outcome :=
  fetchTasksResume (fetchTasksStart w) res

/-- The function `fetchAnalytics` up to `await fetch('/api/analytics/')`. -/
def fetchAnalyticsStart (w : World) : World :=
  sendRequest w (getRequest "/api/analytics/")

/-- The function `fetchAnalytics` from the point where its fetch settles. -/
def fetchAnalyticsResume (w : World) : FetchResult → Outcome
  | .rejected => ⟨w, .threw .fetchFailed⟩
  | .response r =>
    if r.ok then
      match r.body with
      | none => ⟨w, .threw .syntaxError⟩
      | some data => renderAnalytics w data
    else ⟨alert w "Failed to fetch analytics", .normal⟩

/-- The function `fetchAnalytics` run from call to end. -/
def fetchAnalytics (w : World) (res : FetchResult) : Outcome :=
  fetchAnalyticsResume (fetchAnalyticsStart w) res

/-- The top level of the script: the submit listener is registered, then
`fetchTasks()` and `fetchAnalytics()` are called one after the other and each
runs up to its `await`. -/
def pageLoad (w : World) : World :=
  fetchAnalyticsStart (fetchTasksStart w)

/-! ## Well-formed bodies (data model of the spec) -/

/-- The name of a well-formed Task: an object whose `name` is a string. -/
def taskNameOf : JSON → Option String
  | .obj ms =>
    match lookupMember "name" ms with
    | some (.str name) => some name
    | _ => none
  | _ => none

/-- The names of a sequence of well-formed Tasks, in order. -/
def taskNamesOf : List JSON → Option (List String)
  | [] => some []
  | task :: rest =>
    match taskNameOf task, taskNamesOf rest with
    | some name, some names => some (name :: names)
    | _, _ => none

/-- The task names of a well-formed TaskListResponse: an object whose `tasks`
is an array of well-formed Tasks. -/
def taskListOf : JSON → Option (List String)
  | .obj ms =>
    match lookupMember "tasks" ms with
    | some (.arr tasks) => taskNamesOf tasks
    | _ => none
  | _ => none

/-- The counts of a well-formed AnalyticsResponse: an object whose `completed`
and `pending` are safe integers. -/
def analyticsOf : JSON → Option (SafeInteger × SafeInteger)
  | .obj ms =>
    match lookupMember "completed" ms, lookupMember "pending" ms with
    | some (.num c), some (.num p) =>
      if h : c.natAbs < 9007199254740992 ∧ p.natAbs < 9007199254740992 then
        some (⟨c, h.1⟩, ⟨p, h.2⟩)
      else none
    | _, _ => none
  | _ => none

/-! ## Reading a request body back (JSON grammar) -/

/-- The value of a hexadecimal digit. -/
def hexValue (c : Char) : Option Nat :=
  if 48 ≤ c.toNat ∧ c.toNat ≤ 57 then some (c.toNat - 48)
  else if 97 ≤ c.toNat ∧ c.toNat ≤ 102 then some (c.toNat - 87)
  else if 65 ≤ c.toNat ∧ c.toNat ≤ 70 then some (c.toNat - 55)
  else none

/-- The character a short escape of the JSON grammar stands for, given the
character after the backslash. -/
def unescape (c : Char) : Option Char :=
  if c.toNat = 98 then some (Char.ofNat 8)
  else if c.toNat = 116 then some (Char.ofNat 9)
  else if c.toNat = 110 then some (Char.ofNat 10)
  else if c.toNat = 102 then some (Char.ofNat 12)
  else if c.toNat = 114 then some (Char.ofNat 13)
  else if c.toNat = 34 then some (Char.ofNat 34)
  else if c.toNat = 92 then some (Char.ofNat 92)
  else if c.toNat = 47 then some (Char.ofNat 47)
  else none

/-- The rest of a JSON string literal, after its opening quote, read up to the
closing quote: the string it denotes and the text that follows. A raw control
character, an unknown escape and a missing closing quote are errors; an escape
`\uXXXX` of a surrogate is outside this model of strings and is refused. -/
def readStringBody : List Char → Option (List Char × List Char)
  | [] => none
  | c :: rest =>
    if c.toNat = 34 then some ([], rest)
    else if c.toNat = 92 then
      match rest with
      | [] => none
      | e :: rest1 =>
        if e.toNat = 117 then
          match rest1 with
          | a :: b :: c :: d :: rest2 =>
            match hexValue a, hexValue b, hexValue c, hexValue d with
            | some x, some y, some z, some t =>
              if ((x * 16 + y) * 16 + z) * 16 + t < 55296 then
                match readStringBody rest2 with
                | some (s, r) => some (Char.ofNat (((x * 16 + y) * 16 + z) * 16 + t) :: s, r)
                | none => none
              else none
            | _, _, _, _ => none
          | _ => none
        else
          match unescape e, readStringBody rest1 with
          | some ch, some (s, r) => some (ch :: s, r)
          | _, _ => none
    else if c.toNat < 32 then none
    else
      match readStringBody rest with
      | some (s, r) => some (c :: s, r)
      | none => none

/-- A JSON string literal at the head of a text: the string it denotes and the
text that follows. -/
def readString : List Char → Option (List Char × List Char)
  | c :: rest => if c.toNat = 34 then readStringBody rest else none
  | [] => none

/-- The value `v` of a JSON text of the form `{"name":v}` with `v` a string
literal, and `none` for every other text: the reading under which a body is
the JSON encoding of the object `{ name: v }`. -/
def readNameRecord (body : String) : Option String :=
  match body.data with
  | c :: rest =>
    if c.toNat = 123 then
      match readString rest with
      | some (key, d :: rest1) =>
        if key = "name".data ∧ d.toNat = 58 then
          match readString rest1 with
          | some (value, [e]) => if e.toNat = 125 then some (String.mk value) else none
          | _ => none
        else none
      | _ => none
    else none
  | [] => none

/-! ## Auxiliary facts -/

theorem addTaskToList_named (w : World) (ms : List (String × JSON)) (name : String)
    (h : lookupMember "name" ms = some (.str name)) :
    addTaskToList w (.obj ms) = ⟨appendListItem w name, .normal⟩ := by
  simp [addTaskToList, JSON.getMember, h, domText, JSON.text]

theorem addTaskToList_of_taskNameOf (w : World) (task : JSON) (name : String)
    (h : taskNameOf task = some name) :
    addTaskToList w task = ⟨appendListItem w name, .normal⟩ := by
  cases task with
  | obj ms =>
    simp only [taskNameOf] at h
    split at h
    · rename_i s hs
      cases h
      exact addTaskToList_named w ms _ hs
    · cases h
  | _ => simp [taskNameOf] at h

/-! ### What each function can change

Each lemma gives the change a function makes in a form that does not depend on
the state it starts from. -/

theorem world_eta (w : World) :
    ({ w with dom := { w.dom with taskList := w.dom.taskList ++ [] } } : World) = w := by
  cases w with
  | mk dom alerts requests defaultPrevented =>
    cases dom
    simp

theorem addTaskToList_effect (task : JSON) :
    ∃ (ys : List String) (c : Completion), ∀ w : World,
      addTaskToList w task =
        ⟨{ w with dom := { w.dom with taskList := w.dom.taskList ++ ys } }, c⟩ := by
  cases h1 : task.getMember "name" with
  | error e => exact ⟨[], .threw e, fun w => by simp [addTaskToList, h1, world_eta]⟩
  | ok name =>
    cases h2 : domText name with
    | error e => exact ⟨[], .threw e, fun w => by simp [addTaskToList, h1, h2, world_eta]⟩
    | ok text => exact ⟨[text], .normal, fun w => by simp [addTaskToList, h1, h2, appendListItem]⟩

theorem forEachAddTaskToList_effect (tasks : List JSON) :
    ∃ (ys : List String) (c : Completion), ∀ w : World,
      forEachAddTaskToList w tasks =
        ⟨{ w with dom := { w.dom with taskList := w.dom.taskList ++ ys } }, c⟩ := by
  induction tasks with
  | nil => exact ⟨[], .normal, fun w => by simp [forEachAddTaskToList, world_eta]⟩
  | cons task rest ih =>
    obtain ⟨ys, c, h⟩ := addTaskToList_effect task
    obtain ⟨zs, d, ih⟩ := ih
    cases c with
    | normal =>
      exact ⟨ys ++ zs, d, fun w => by simp [forEachAddTaskToList, h, ih, List.append_assoc]⟩
    | threw e =>
      exact ⟨ys, .threw e, fun w => by simp [forEachAddTaskToList, h]⟩

theorem renderTasks_effect (data : JSON) :
    ∃ (ys : List String) (c : Completion), ∀ w : World,
      renderTasks w data =
        ⟨{ w with dom := { w.dom with taskList := w.dom.taskList ++ ys } }, c⟩ := by
  cases h1 : data.getMember "tasks" with
  | error e => exact ⟨[], .threw e, fun w => by simp [renderTasks, h1, world_eta]⟩
  | ok v =>
    cases v with
    | none => exact ⟨[], .threw .typeError, fun w => by simp [renderTasks, h1, world_eta]⟩
    | some v =>
      cases v with
      | arr tasks =>
        obtain ⟨ys, c, h⟩ := forEachAddTaskToList_effect tasks
        exact ⟨ys, c, fun w => by simp [renderTasks, h1, h]⟩
      | _ => exact ⟨[], .threw .typeError, fun w => by simp [renderTasks, h1, world_eta]⟩

theorem fetchTasksResume_effect (res : FetchResult) :
    ∃ (ys al : List String) (c : Completion), ∀ w : World,
      fetchTasksResume w res =
        ⟨{ w with dom := { w.dom with taskList := w.dom.taskList ++ ys },
                  alerts := w.alerts ++ al }, c⟩ := by
  cases res with
  | rejected =>
    exact ⟨[], [], .threw .fetchFailed, fun w => by simp [fetchTasksResume, world_eta]⟩
  | response r =>
    obtain ⟨ok, status, body⟩ := r
    cases ok with
    | false =>
      exact ⟨[], ["Failed to fetch tasks"], .normal, fun w => by
        simp [fetchTasksResume, alert]⟩
    | true =>
      cases body with
      | none =>
        exact ⟨[], [], .threw .syntaxError, fun w => by simp [fetchTasksResume, world_eta]⟩
      | some data =>
        obtain ⟨ys, c, h⟩ := renderTasks_effect data
        exact ⟨ys, [], c, fun w => by simp [fetchTasksResume, h]⟩

theorem dom_eta (w : World) :
    ({ w with dom := { w.dom with completedTasks := w.dom.completedTasks,
                                  pendingTasks := w.dom.pendingTasks } } : World) = w := by
  cases w with
  | mk dom alerts requests defaultPrevented =>
    cases dom
    simp

theorem renderAnalytics_effect (data : JSON) :
    ∃ (co po : Option String) (c : Completion), ∀ w : World,
      renderAnalytics w data =
        ⟨{ w with dom := { w.dom with completedTasks := co.getD w.dom.completedTasks,
                                      pendingTasks := po.getD w.dom.pendingTasks } }, c⟩ := by
  cases h1 : data.getMember "completed" with
  | error e => exact ⟨none, none, .threw e, fun w => by simp [renderAnalytics, h1, dom_eta]⟩
  | ok completed =>
    cases h2 : domText completed with
    | error e =>
      exact ⟨none, none, .threw e, fun w => by simp [renderAnalytics, h1, h2, dom_eta]⟩
    | ok cText =>
      cases h3 : data.getMember "pending" with
      | error e =>
        exact ⟨some cText, none, .threw e, fun w => by simp [renderAnalytics, h1, h2, h3]⟩
      | ok pending =>
        cases h4 : domText pending with
        | error e =>
          exact ⟨some cText, none, .threw e, fun w => by
            simp [renderAnalytics, h1, h2, h3, h4]⟩
        | ok pText =>
          exact ⟨some cText, some pText, .normal, fun w => by
            simp [renderAnalytics, h1, h2, h3, h4]⟩

theorem fetchAnalyticsResume_effect (res : FetchResult) :
    ∃ (co po : Option String) (al : List String) (c : Completion), ∀ w : World,
      fetchAnalyticsResume w res =
        ⟨{ w with dom := { w.dom with completedTasks := co.getD w.dom.completedTasks,
                                      pendingTasks := po.getD w.dom.pendingTasks },
                  alerts := w.alerts ++ al }, c⟩ := by
  cases res with
  | rejected =>
    exact ⟨none, none, [], .threw .fetchFailed, fun w => by
      simp [fetchAnalyticsResume, dom_eta]⟩
  | response r =>
    obtain ⟨ok, status, body⟩ := r
    cases ok with
    | false =>
      exact ⟨none, none, ["Failed to fetch analytics"], .normal, fun w => by
        simp [fetchAnalyticsResume, alert]⟩
    | true =>
      cases body with
      | none =>
        exact ⟨none, none, [], .threw .syntaxError, fun w => by
          simp [fetchAnalyticsResume, dom_eta]⟩
      | some data =>
        obtain ⟨co, po, c, h⟩ := renderAnalytics_effect data
        exact ⟨co, po, [], c, fun w => by simp [fetchAnalyticsResume, h]⟩

theorem submitResume_effect (res : FetchResult) :
    ∃ (tn : Option String) (ys al : List String) (c : Completion), ∀ w : World,
      submitResume w res =
        ⟨{ w with dom := { w.dom with taskName := tn.getD w.dom.taskName,
                                      taskList := w.dom.taskList ++ ys },
                  alerts := w.alerts ++ al }, c⟩ := by
  cases res with
  | rejected =>
    exact ⟨none, [], [], .threw .fetchFailed, fun w => by simp [submitResume, world_eta]⟩
  | response r =>
    obtain ⟨ok, status, body⟩ := r
    cases ok with
    | false =>
      exact ⟨none, [], ["Failed to add task"], .normal, fun w => by
        simp [submitResume, alert]⟩
    | true =>
      cases body with
      | none =>
        exact ⟨none, [], [], .threw .syntaxError, fun w => by simp [submitResume, world_eta]⟩
      | some task =>
        obtain ⟨ys, c, h⟩ := addTaskToList_effect task
        cases c with
        | normal =>
          exact ⟨some defaultTaskName, ys, [], .normal, fun w => by
            simp [submitResume, h, resetForm]⟩
        | threw e =>
          exact ⟨none, ys, [], .threw e, fun w => by simp [submitResume, h]⟩

theorem forEachAddTaskToList_names (tasks : List JSON) (names : List String)
    (h : List.Forall₂ (fun task name => taskNameOf task = some name) tasks names) (w : World) :
    forEachAddTaskToList w tasks =
      ⟨{ w with dom := { w.dom with taskList := w.dom.taskList ++ names } }, .normal⟩ := by
  induction h generalizing w with
  | nil => simp [forEachAddTaskToList, world_eta]
  | cons hd _ ih =>
    simp [forEachAddTaskToList, addTaskToList_of_taskNameOf _ _ _ hd, ih, appendListItem]

theorem forall2_of_taskNamesOf (tasks : List JSON) (names : List String)
    (h : taskNamesOf tasks = some names) :
    List.Forall₂ (fun task name => taskNameOf task = some name) tasks names := by
  induction tasks generalizing names with
  | nil =>
    simp [taskNamesOf] at h
    subst h
    exact List.Forall₂.nil
  | cons task rest ih =>
    simp only [taskNamesOf] at h
    split at h
    · rename_i name ns h1 h2
      cases h
      exact List.Forall₂.cons h1 (ih ns h2)
    · cases h

/-! ### Numbers in the safe range are shown in decimal -/

theorem exponentOf_of_lt (fuel v : Nat) (h : v < 2 ^ 53) : exponentOf fuel v = 0 := by
  cases fuel with
  | zero => rfl
  | succ f =>
    show (if v < 2 ^ 53 then 0 else exponentOf f (v / 2) + 1) = 0
    exact if_pos h

theorem le_div_mul_exponentOf (fuel v : Nat) (h : 2 ^ 53 ≤ v) :
    2 ^ 53 ≤ v / 2 ^ exponentOf fuel v * 2 ^ exponentOf fuel v := by
  induction fuel generalizing v with
  | zero =>
    show 2 ^ 53 ≤ v / 2 ^ 0 * 2 ^ 0
    simpa using h
  | succ f ih =>
    have hv : ¬ v < 2 ^ 53 := Nat.not_lt.mpr h
    have he : exponentOf (f + 1) v = exponentOf f (v / 2) + 1 := by
      show (if v < 2 ^ 53 then 0 else exponentOf f (v / 2) + 1) = _
      exact if_neg hv
    rw [he]
    have key : v / 2 ^ (exponentOf f (v / 2) + 1) = v / 2 / 2 ^ exponentOf f (v / 2) := by
      rw [Nat.pow_succ, Nat.mul_comm, Nat.div_div_eq_div_mul]
    have hp : 2 ^ (exponentOf f (v / 2) + 1) = 2 ^ exponentOf f (v / 2) * 2 := pow_succ 2 _
    rw [key, hp, ← Nat.mul_assoc]
    by_cases h2 : 2 ^ 53 ≤ v / 2
    · have h3 := ih (v / 2) h2
      exact le_trans h3 (Nat.le_mul_of_pos_right _ (by decide))
    · have h3 : exponentOf f (v / 2) = 0 := exponentOf_of_lt f (v / 2) (Nat.lt_of_not_le h2)
      rw [h3, Nat.pow_zero, Nat.div_one, Nat.mul_one]
      omega

theorem roundToDouble_of_lt (v : Nat) (h : v < 2 ^ 53) : roundToDouble v = some v := by
  unfold roundToDouble
  rw [exponentOf_of_lt 1024 v h]
  simp only [Nat.pow_zero, Nat.div_one, Nat.mod_one, Nat.mul_zero, Nat.mul_one]
  have hc : ¬ (1 < 0 ∨ 0 = 1 ∧ v % 2 = 1) := by omega
  rw [if_neg hc, if_pos (Or.inl (by decide))]

theorem le_of_roundToDouble (v y : Nat) (h : 2 ^ 53 ≤ v) (hy : roundToDouble v = some y) :
    2 ^ 53 ≤ y := by
  have hq := le_div_mul_exponentOf 1024 v h
  unfold roundToDouble at hy
  simp only at hy
  split_ifs at hy with h1 h2 h3
  all_goals
    simp only [Option.some.injEq] at hy
    subst hy
    first
      | exact hq
      | exact le_trans hq (Nat.mul_le_mul_right _ (Nat.le_succ _))

theorem eq_of_roundToDouble (v x : Nat) (hx : x < 2 ^ 53) (h : roundToDouble v = some x) :
    v = x := by
  by_cases hv : v < 2 ^ 53
  · rw [roundToDouble_of_lt v hv] at h
    exact Option.some.inj h
  · have := le_of_roundToDouble v x (Nat.le_of_not_lt hv) h
    omega

theorem shortestAt_safe (x m s : Nat) (hx : x < 2 ^ 53) (h : shortestAt x m = some s) :
    s * 10 ^ m = x ∧ 1 ≤ s := by
  have hpos : 0 < 10 ^ m := Nat.pow_pos (by decide)
  have hlt : x < (x / 10 ^ m + 1) * 10 ^ m := by
    rw [Nat.mul_comm]
    exact Nat.lt_mul_div_succ x hpos
  have hHi : ¬ roundToDouble ((x / 10 ^ m + 1) * 10 ^ m) = some x := by
    intro hr
    have := eq_of_roundToDouble _ x hx hr
    omega
  unfold shortestAt at h
  simp only [beq_iff_eq, hHi, Bool.and_false, decide_False, Bool.false_eq_true, if_false,
    Bool.and_eq_true, decide_eq_true_eq, and_false] at h
  split_ifs at h with h1
  simp only [Option.some.injEq] at h
  subst h
  exact ⟨eq_of_roundToDouble _ x hx h1.2, h1.1⟩

theorem shortestFrom_safe (x : Nat) (hx : x < 2 ^ 53) (h1 : 1 ≤ x) (m : Nat) :
    (shortestFrom x m).1 * 10 ^ (shortestFrom x m).2 = x ∧ 1 ≤ (shortestFrom x m).1 := by
  induction m with
  | zero => simpa [shortestFrom] using h1
  | succ m ih =>
    cases hs : shortestAt x (m + 1) with
    | none => simpa [shortestFrom, hs] using ih
    | some s => simpa [shortestFrom, hs] using shortestAt_safe x (m + 1) s hx hs

theorem toDigitsCore_append (fuel n : Nat) (ds : List Char) :
    Nat.toDigitsCore 10 fuel n ds = Nat.toDigitsCore 10 fuel n [] ++ ds := by
  induction fuel generalizing n ds with
  | zero => simp [Nat.toDigitsCore]
  | succ f ih =>
    simp only [Nat.toDigitsCore]
    split_ifs with h
    · simp
    · rw [ih (n / 10) (_ :: ds), ih (n / 10) [_]]
      simp

theorem toDigitsCore_fuel (f1 f2 n : Nat) (h1 : n < f1) (h2 : n < f2) :
    Nat.toDigitsCore 10 f1 n [] = Nat.toDigitsCore 10 f2 n [] := by
  induction f1 generalizing f2 n with
  | zero => omega
  | succ a ih =>
    cases f2 with
    | zero => omega
    | succ b =>
      simp only [Nat.toDigitsCore]
      split_ifs with h
      · rfl
      · rw [toDigitsCore_append a, toDigitsCore_append b, ih b (n / 10) (by omega) (by omega)]

theorem toDigits_mul_ten (t : Nat) (ht : 1 ≤ t) :
    Nat.toDigits 10 (t * 10) = Nat.toDigits 10 t ++ ['0'] := by
  have h1 : t * 10 / 10 = t := Nat.mul_div_cancel t (by decide)
  have h2 : t * 10 % 10 = 0 := Nat.mul_mod_left t 10
  have h3 : ¬ t = 0 := by omega
  unfold Nat.toDigits
  rw [Nat.toDigitsCore, h1, h2]
  simp only [h3, if_false]
  rw [toDigitsCore_append, toDigitsCore_fuel (t * 10) (t + 1) t (by omega) (by omega)]
  rfl

theorem repr_mul_pow_ten (s m : Nat) (hs : 1 ≤ s) :
    (Nat.repr (s * 10 ^ m)).data = (Nat.repr s).data ++ List.replicate m '0' := by
  induction m with
  | zero => simp
  | succ m ih =>
    have hpos : 1 ≤ s * 10 ^ m := Nat.mul_pos hs (Nat.pow_pos (by decide))
    have e : s * 10 ^ (m + 1) = s * 10 ^ m * 10 := by rw [pow_succ, Nat.mul_assoc]
    have ih2 : Nat.toDigits 10 (s * 10 ^ m) = Nat.toDigits 10 s ++ List.replicate m '0' := ih
    show Nat.toDigits 10 (s * 10 ^ (m + 1)) = Nat.toDigits 10 s ++ List.replicate (m + 1) '0'
    rw [e, toDigits_mul_ten _ hpos, ih2, List.replicate_succ', List.append_assoc]

theorem naturalText_safe (x : Nat) (hx : x < 2 ^ 53) : naturalText x = Nat.repr x := by
  unfold naturalText
  by_cases h0 : x = 0
  · subst h0
    rfl
  · rw [if_neg h0]
    have hsm := shortestFrom_safe x hx (by omega) (Nat.repr x).length
    have hd := repr_mul_pow_ten _ (shortestFrom x (Nat.repr x).length).2 hsm.2
    rw [hsm.1] at hd
    have hlen : (Nat.repr x).length ≤ 16 :=
      Nat.repr_length x 16 (by decide) (lt_trans hx (by norm_num))
    have hl2 : (Nat.repr (shortestFrom x (Nat.repr x).length).1).data.length
        + (shortestFrom x (Nat.repr x).length).2 ≤ 21 := by
      have := congrArg List.length hd
      simp only [List.length_append, List.length_replicate] at this
      have h3 : (Nat.repr x).length = (Nat.repr x).data.length := rfl
      omega
    simp only [hl2, if_true]
    rw [← hd]

theorem numberText_safe (n : Int) (hn : n.natAbs < 9007199254740992) :
    numberText n = toString n := by
  have h : n.natAbs < 2 ^ 53 := hn
  unfold numberText
  rw [roundToDouble_of_lt _ h]
  simp only
  cases n with
  | ofNat m =>
    have hm : ¬ (Int.ofNat m < 0) := by simp
    rw [if_neg hm]
    exact naturalText_safe m h
  | negSucc m =>
    have hm : Int.negSucc m < 0 := Int.negSucc_lt_zero m
    rw [if_pos hm]
    show "-" ++ naturalText (m + 1) = "-" ++ Nat.repr (m + 1)
    rw [naturalText_safe (m + 1) h]

/-! ### The request body reads back -/

theorem hexValue_hexDigit : ∀ d, d < 16 → hexValue (hexDigit d) = some d := by decide

theorem readStringBody_close (rest : List Char) :
    readStringBody (Char.ofNat 34 :: rest) = some ([], rest) := by
  rw [readStringBody.eq_def]; simp

theorem readStringBody_plain (c : Char) (rest s r : List Char)
    (h1 : c.toNat ≠ 34) (h2 : c.toNat ≠ 92) (h3 : ¬ c.toNat < 32)
    (h : readStringBody rest = some (s, r)) :
    readStringBody (c :: rest) = some (c :: s, r) := by
  rw [readStringBody.eq_def]; simp [h1, h2, h3, h]

theorem readStringBody_short (e ch : Char) (rest s r : List Char)
    (h1 : e.toNat ≠ 117) (h2 : unescape e = some ch)
    (h : readStringBody rest = some (s, r)) :
    readStringBody (Char.ofNat 92 :: e :: rest) = some (ch :: s, r) := by
  rw [readStringBody.eq_def]; simp [h1, h2, h]

theorem readStringBody_unicode (n : Nat) (rest s r : List Char) (hn : n < 32)
    (h : readStringBody rest = some (s, r)) :
    readStringBody (Char.ofNat 92 :: Char.ofNat 117 :: hexDigit (n / 4096 % 16) ::
        hexDigit (n / 256 % 16) :: hexDigit (n / 16 % 16) :: hexDigit (n % 16) :: rest) =
      some (Char.ofNat n :: s, r) := by
  have e : ((n / 4096 % 16 * 16 + n / 256 % 16) * 16 + n / 16 % 16) * 16 + n % 16 = n := by
    omega
  rw [readStringBody.eq_def]
  simp [hexValue_hexDigit _ (Nat.mod_lt _ (by decide : 0 < 16)), e, h]
  omega

theorem readStringBody_quoteChar (c : Char) (rest s r : List Char)
    (h : readStringBody rest = some (s, r)) :
    readStringBody (quoteChar c ++ rest) = some (c :: s, r) := by
  have hc : Char.ofNat c.toNat = c := Char.ofNat_toNat c
  unfold quoteChar
  by_cases h1 : c.toNat = 8
  · rw [if_pos h1]
    have k := readStringBody_short 'b' (Char.ofNat c.toNat) rest s r (by decide)
      (by rw [h1]; rfl) h
    rwa [hc] at k
  rw [if_neg h1]
  by_cases h2 : c.toNat = 9
  · rw [if_pos h2]
    have k := readStringBody_short 't' (Char.ofNat c.toNat) rest s r (by decide)
      (by rw [h2]; rfl) h
    rwa [hc] at k
  rw [if_neg h2]
  by_cases h3 : c.toNat = 10
  · rw [if_pos h3]
    have k := readStringBody_short 'n' (Char.ofNat c.toNat) rest s r (by decide)
      (by rw [h3]; rfl) h
    rwa [hc] at k
  rw [if_neg h3]
  by_cases h4 : c.toNat = 12
  · rw [if_pos h4]
    have k := readStringBody_short 'f' (Char.ofNat c.toNat) rest s r (by decide)
      (by rw [h4]; rfl) h
    rwa [hc] at k
  rw [if_neg h4]
  by_cases h5 : c.toNat = 13
  · rw [if_pos h5]
    have k := readStringBody_short 'r' (Char.ofNat c.toNat) rest s r (by decide)
      (by rw [h5]; rfl) h
    rwa [hc] at k
  rw [if_neg h5]
  by_cases h6 : c.toNat = 34
  · rw [if_pos h6]
    have k := readStringBody_short (Char.ofNat 34) (Char.ofNat c.toNat) rest s r (by decide)
      (by rw [h6]; rfl) h
    rwa [hc] at k
  rw [if_neg h6]
  by_cases h7 : c.toNat = 92
  · rw [if_pos h7]
    have k := readStringBody_short (Char.ofNat 92) (Char.ofNat c.toNat) rest s r (by decide)
      (by rw [h7]; rfl) h
    rwa [hc] at k
  rw [if_neg h7]
  by_cases h8 : c.toNat < 32
  · rw [if_pos h8]
    have k := readStringBody_unicode c.toNat rest s r h8 h
    rwa [hc] at k
  rw [if_neg h8]
  exact readStringBody_plain c rest s r h6 h7 h8 h

theorem readStringBody_quote (cs rest : List Char) :
    readStringBody (cs.flatMap quoteChar ++ Char.ofNat 34 :: rest) = some (cs, rest) := by
  induction cs with
  | nil => exact readStringBody_close rest
  | cons c cs ih =>
    rw [List.flatMap_cons, List.append_assoc]
    exact readStringBody_quoteChar c _ _ _ ih

theorem readString_quoteJSONString (s : String) (rest : List Char) :
    readString (quoteJSONString s ++ rest) = some (s.data, rest) := by
  have h := readStringBody_quote s.data rest
  simpa [readString, quoteJSONString] using h

theorem readNameRecord_stringify (taskName : String) :
    readNameRecord (stringifyNameRecord taskName) = some taskName := by
  have h1 := readString_quoteJSONString "name"
    (Char.ofNat 58 :: (quoteJSONString taskName ++ [Char.ofNat 125]))
  have h2 := readString_quoteJSONString taskName [Char.ofNat 125]
  unfold readNameRecord stringifyNameRecord
  simp only [h1, h2]
  simp

/-! ## The claims -/

/-- C1: for every document state and every ok response to the task-creation
POST whose body is an object with a string `name`, the submit handler appends
exactly one item, with that name as its text, to the end of `task-list`, shows
no alert, completes normally, and leaves the `task-name` input empty. -/
theorem submit_ok_appends_name_and_clears_input (w : World) (status : Nat)
    (ms : List (String × JSON)) (name : String)
    (h : lookupMember "name" ms = some (.str name)) :
    submitHandler w (.response ⟨true, status, some (.obj ms)⟩) =
      ⟨{ dom := { taskName := ""
                  taskList := w.dom.taskList ++ [name]
                  completedTasks := w.dom.completedTasks
                  pendingTasks := w.dom.pendingTasks }
         alerts := w.alerts
         requests := w.requests ++ [createTaskRequest w.dom.taskName]
         defaultPrevented := true }, .normal⟩ := by
  simp [submitHandler, submitResume, submitStart, sendRequest, addTaskToList_named _ _ _ h,
    appendListItem, resetForm, defaultTaskName]

/-- Scenario of the spec for C1: the POST answered by
`200 {"name":"Buy milk","id":1}` adds the item "Buy milk" and clears the
input. -/
theorem submit_ok_appends_name_and_clears_input_witness :
    lookupMember "name" [("name", JSON.str "Buy milk"), ("id", JSON.num 1)]
        = some (.str "Buy milk") ∧
      submitHandler ⟨⟨"Buy milk", ["Walk dog"], "0", "1"⟩, [], [], false⟩
          (.response ⟨true, 200,
            some (.obj [("name", .str "Buy milk"), ("id", .num 1)])⟩) =
        ⟨⟨⟨"", ["Walk dog", "Buy milk"], "0", "1"⟩, [],
          [createTaskRequest "Buy milk"], true⟩, .normal⟩ :=
  ⟨rfl, submit_ok_appends_name_and_clears_input
    ⟨⟨"Buy milk", ["Walk dog"], "0", "1"⟩, [], [], false⟩ 200 _ "Buy milk" rfl⟩

/-- C2: for every document state and every non-ok response to the
task-creation POST (whatever its status and body), the submit handler leaves
the document as it was, so the `task-name` value and the `task-list` contents
are unchanged, and shows exactly one alert, "Failed to add task". -/
theorem submit_not_ok_alerts_and_keeps_document (w : World) (status : Nat)
    (body : Option JSON) :
    submitHandler w (.response ⟨false, status, body⟩) =
      ⟨{ dom := w.dom
         alerts := w.alerts ++ ["Failed to add task"]
         requests := w.requests ++ [createTaskRequest w.dom.taskName]
         defaultPrevented := true }, .normal⟩ := by
  simp [submitHandler, submitResume, submitStart, sendRequest, alert]

/-- C3: for every prior list content and every ok task-listing response whose
`tasks` is an array of tasks `t1, ..., tn` with string names, `fetchTasks`
completes normally with the prior contents followed by the names, in response
order, and nothing else changed; the number of appended items is the length of
`tasks`. -/
theorem fetchTasks_ok_appends_names_in_order (w : World) (status : Nat)
    (ms : List (String × JSON)) (tasks : List JSON) (names : List String)
    (hTasks : lookupMember "tasks" ms = some (.arr tasks))
    (hNames : List.Forall₂ (fun task name => task.getMember "name" = .ok (some (.str name)))
      tasks names) :
    fetchTasks w (.response ⟨true, status, some (.obj ms)⟩) =
        ⟨{ dom := { taskName := w.dom.taskName
                    taskList := w.dom.taskList ++ names
                    completedTasks := w.dom.completedTasks
                    pendingTasks := w.dom.pendingTasks }
           alerts := w.alerts
           requests := w.requests ++ [getRequest "/api/tasks/"]
           defaultPrevented := w.defaultPrevented }, .normal⟩ ∧
      names.length = tasks.length := by
  have hNames2 : List.Forall₂ (fun task name => taskNameOf task = some name) tasks names := by
    refine hNames.imp ?_
    intro task name ht
    cases task with
    | obj fs =>
      simp only [JSON.getMember, Except.ok.injEq] at ht
      simp [taskNameOf, ht]
    | _ => simp [JSON.getMember] at ht
  refine ⟨?_, hNames.length_eq.symm⟩
  simp [fetchTasks, fetchTasksResume, fetchTasksStart, sendRequest, renderTasks,
    JSON.getMember, hTasks, forEachAddTaskToList_names _ _ hNames2]

/-- Scenario of the spec for C3: `200 {"tasks":[{"name":"A"},{"name":"B"}]}`
adds the items "A" then "B". -/
theorem fetchTasks_ok_appends_names_in_order_witness :
    fetchTasks ⟨⟨"", ["Z"], "0", "0"⟩, [], [], false⟩
          (.response ⟨true, 200, some (.obj [("tasks",
            .arr [.obj [("name", .str "A")], .obj [("name", .str "B")]])])⟩) =
        ⟨⟨⟨"", ["Z", "A", "B"], "0", "0"⟩, [], [getRequest "/api/tasks/"], false⟩, .normal⟩ ∧
      ["A", "B"].length = [JSON.obj [("name", .str "A")], JSON.obj [("name", .str "B")]].length :=
  fetchTasks_ok_appends_names_in_order ⟨⟨"", ["Z"], "0", "0"⟩, [], [], false⟩ 200 _ _
    ["A", "B"] rfl (.cons rfl (.cons rfl .nil))

/-- C4, as the code has it: for every ok analytics response whose body is an
object with integer `completed` = c and `pending` = p in the safe range
(magnitude below `2 ^ 53`), `fetchAnalytics` completes normally with the text
of `completed-tasks` equal to the decimal form of c and the text of
`pending-tasks` equal to the decimal form of p, and nothing else changed. -/
theorem fetchAnalytics_ok_shows_counts (w : World) (status : Nat)
    (ms : List (String × JSON)) (c p : SafeInteger)
    (hc : lookupMember "completed" ms = some (.num c.val))
    (hp : lookupMember "pending" ms = some (.num p.val)) :
    fetchAnalytics w (.response ⟨true, status, some (.obj ms)⟩) =
      ⟨{ dom := { taskName := w.dom.taskName
                  taskList := w.dom.taskList
                  completedTasks := toString c.val
                  pendingTasks := toString p.val }
         alerts := w.alerts
         requests := w.requests ++ [getRequest "/api/analytics/"]
         defaultPrevented := w.defaultPrevented }, .normal⟩ := by
  simp [fetchAnalytics, fetchAnalyticsResume, fetchAnalyticsStart, sendRequest,
    renderAnalytics, JSON.getMember, hc, hp, domText, JSON.text,
    numberText_safe _ c.safe, numberText_safe _ p.safe]

/-- Scenario of the spec for C4: `200 {"completed":3,"pending":7}` shows "3" in
`completed-tasks` and "7" in `pending-tasks`. -/
theorem fetchAnalytics_ok_shows_counts_witness :
    fetchAnalytics ⟨⟨"", [], "-", "-"⟩, [], [], false⟩
        (.response ⟨true, 200, some (.obj [("completed", .num 3), ("pending", .num 7)])⟩) =
      ⟨⟨⟨"", [], "3", "7"⟩, [], [getRequest "/api/analytics/"], false⟩, .normal⟩ :=
  fetchAnalytics_ok_shows_counts ⟨⟨"", [], "-", "-"⟩, [], [], false⟩ 200 _
    ⟨3, by decide⟩ ⟨7, by decide⟩ rfl rfl

/-- C4 fails as stated: the integers of
`200 {"completed":9007199254740993,"pending":1000000000000000000000}` are read
as doubles, so `completed-tasks` shows the rounded "9007199254740992" and
`pending-tasks` shows "1e+21"; neither is the decimal form of the field. -/
theorem fetchAnalytics_rounds_large_counts :
    fetchAnalytics ⟨⟨"", [], "-", "-"⟩, [], [], false⟩
        (.response ⟨true, 200, some (.obj [("completed", .num 9007199254740993),
          ("pending", .num 1000000000000000000000)])⟩) =
      ⟨⟨⟨"", [], "9007199254740992", "1e+21"⟩, [], [getRequest "/api/analytics/"], false⟩,
        .normal⟩ ∧
    "9007199254740992" ≠ toString (9007199254740993 : Int) ∧
    "1e+21" ≠ toString (1000000000000000000000 : Int) := by
  decide

/-- C5, as the code has it: a non-ok response makes each of the three
operations show exactly one alert, with its own fixed message, and complete
normally; a rejected fetch is caught by none of them: no alert is shown and the
rejection escapes the operation. -/
theorem request_failure_handling (w : World) (status : Nat) (body : Option JSON) :
    ((submitHandler w (.response ⟨false, status, body⟩)).world.alerts
        = w.alerts ++ ["Failed to add task"] ∧
      (submitHandler w (.response ⟨false, status, body⟩)).completion = .normal) ∧
    ((fetchTasks w (.response ⟨false, status, body⟩)).world.alerts
        = w.alerts ++ ["Failed to fetch tasks"] ∧
      (fetchTasks w (.response ⟨false, status, body⟩)).completion = .normal) ∧
    ((fetchAnalytics w (.response ⟨false, status, body⟩)).world.alerts
        = w.alerts ++ ["Failed to fetch analytics"] ∧
      (fetchAnalytics w (.response ⟨false, status, body⟩)).completion = .normal) ∧
    ((submitHandler w .rejected).world.alerts = w.alerts ∧
      (submitHandler w .rejected).completion = .threw .fetchFailed) ∧
    ((fetchTasks w .rejected).world.alerts = w.alerts ∧
      (fetchTasks w .rejected).completion = .threw .fetchFailed) ∧
    ((fetchAnalytics w .rejected).world.alerts = w.alerts ∧
      (fetchAnalytics w .rejected).completion = .threw .fetchFailed) := by
  simp [submitHandler, submitResume, submitStart, fetchTasks, fetchTasksResume,
    fetchTasksStart, fetchAnalytics, fetchAnalyticsResume, fetchAnalyticsStart,
    sendRequest, alert]

/-- C5 fails as stated: when the fetch itself is rejected, each of the three
operations ends with no alert shown at all and with the rejection thrown out of
the operation. -/
theorem fetch_rejection_is_not_notified :
    submitHandler ⟨⟨"Buy milk", [], "0", "0"⟩, [], [], false⟩ .rejected =
        ⟨⟨⟨"Buy milk", [], "0", "0"⟩, [], [createTaskRequest "Buy milk"], true⟩,
          .threw .fetchFailed⟩ ∧
      fetchTasks ⟨⟨"", [], "0", "0"⟩, [], [], false⟩ .rejected =
        ⟨⟨⟨"", [], "0", "0"⟩, [], [getRequest "/api/tasks/"], false⟩,
          .threw .fetchFailed⟩ ∧
      fetchAnalytics ⟨⟨"", [], "0", "0"⟩, [], [], false⟩ .rejected =
        ⟨⟨⟨"", [], "0", "0"⟩, [], [getRequest "/api/analytics/"], false⟩,
          .threw .fetchFailed⟩ := by
  decide

/-- C6: for every value of the `task-name` field, the empty string included,
the submit handler issues exactly one request, whatever the outcome of that
request: a POST to `/api/tasks/` with the header `Content-Type:
application/json` and the body `JSON.stringify({ name: value })`, which reads
back as an object whose `name` is the value. For the empty string the body is
`{"name":""}`. -/
theorem submit_issues_one_post (w : World) (res : FetchResult) :
    (submitStart w).requests =
        w.requests ++ [{ method := "POST"
                         url := "/api/tasks/"
                         headers := [("Content-Type", "application/json")]
                         body := some (stringifyNameRecord w.dom.taskName) }] ∧
      (submitHandler w res).world.requests = (submitStart w).requests ∧
      readNameRecord (stringifyNameRecord w.dom.taskName) = some w.dom.taskName ∧
      stringifyNameRecord "" = "\x7b\"name\":\"\"\x7d" := by
  refine ⟨rfl, ?_, readNameRecord_stringify _, by decide⟩
  obtain ⟨tn, ys, al, c, h⟩ := submitResume_effect res
  simp [submitHandler, h]

/-- C7: the task list is append-only. Whatever the task and whatever the way
the request settles, the contents of `task-list` before `addTaskToList`, the
submit handler, `fetchTasks` or `fetchAnalytics` (run as a whole or resumed on
any state) are an initial segment of the contents after it. A task with a
string name always gets one new item at the end, also when an item with that
text is already there: two calls with the same task give two items. -/
theorem task_list_append_only (w : World) (task : JSON) (res : FetchResult) :
    (∃ ys, (addTaskToList w task).world.dom.taskList = w.dom.taskList ++ ys) ∧
    (∃ ys, (submitResume w res).world.dom.taskList = w.dom.taskList ++ ys) ∧
    (∃ ys, (submitHandler w res).world.dom.taskList = w.dom.taskList ++ ys) ∧
    (∃ ys, (fetchTasksResume w res).world.dom.taskList = w.dom.taskList ++ ys) ∧
    (∃ ys, (fetchTasks w res).world.dom.taskList = w.dom.taskList ++ ys) ∧
    (∃ ys, (fetchAnalyticsResume w res).world.dom.taskList = w.dom.taskList ++ ys) ∧
    (∃ ys, (fetchAnalytics w res).world.dom.taskList = w.dom.taskList ++ ys) ∧
    (∀ name : String, task.getMember "name" = .ok (some (.str name)) →
      (addTaskToList w task).world.dom.taskList = w.dom.taskList ++ [name] ∧
      (addTaskToList (addTaskToList w task).world task).world.dom.taskList
        = w.dom.taskList ++ [name, name]) := by
  obtain ⟨ys1, c1, h1⟩ := addTaskToList_effect task
  obtain ⟨tn2, ys2, al2, c2, h2⟩ := submitResume_effect res
  obtain ⟨ys3, al3, c3, h3⟩ := fetchTasksResume_effect res
  obtain ⟨co4, po4, al4, c4, h4⟩ := fetchAnalyticsResume_effect res
  refine ⟨⟨ys1, by simp [h1]⟩, ⟨ys2, by simp [h2]⟩, ⟨ys2, ?_⟩, ⟨ys3, by simp [h3]⟩,
    ⟨ys3, ?_⟩, ⟨[], by simp [h4]⟩, ⟨[], ?_⟩, ?_⟩
  · simp [submitHandler, h2, submitStart, sendRequest]
  · simp [fetchTasks, h3, fetchTasksStart, sendRequest]
  · simp [fetchAnalytics, h4, fetchAnalyticsStart, sendRequest]
  · intro name hn
    simp [addTaskToList, hn, domText, JSON.text, appendListItem]

/-- A run of C7: adding the task `{"name":"A"}` to a list that already shows
"A" appends a second "A", and adding it once more a third. -/
theorem task_list_append_only_witness :
    (addTaskToList ⟨⟨"", ["A"], "0", "0"⟩, [], [], false⟩
        (.obj [("name", .str "A")])).world.dom.taskList = ["A"] ++ ["A"] ∧
      (addTaskToList (addTaskToList ⟨⟨"", ["A"], "0", "0"⟩, [], [], false⟩
        (.obj [("name", .str "A")])).world (.obj [("name", .str "A")])).world.dom.taskList
        = ["A"] ++ ["A", "A"] :=
  (task_list_append_only ⟨⟨"", ["A"], "0", "0"⟩, [], [], false⟩
    (.obj [("name", .str "A")]) .rejected).2.2.2.2.2.2.2 "A" rfl

/-- C8: the two page-load fetches write to disjoint parts of the document.
The page load issues the two GET requests and leaves the document alone.
Resumed on any state and for any way its request settles, `fetchTasks` leaves
the input value and both analytics texts as they were and `fetchAnalytics`
leaves the input value and the list as they were; completing the two in either
order gives the same document, and each of them ends the same way in both
orders. -/
theorem page_load_fetches_commute (w : World) (r1 r2 : FetchResult) :
    ((pageLoad w).dom = w.dom ∧
      (pageLoad w).requests
        = w.requests ++ [getRequest "/api/tasks/", getRequest "/api/analytics/"]) ∧
    ((fetchTasksResume w r1).world.dom.taskName = w.dom.taskName ∧
      (fetchTasksResume w r1).world.dom.completedTasks = w.dom.completedTasks ∧
      (fetchTasksResume w r1).world.dom.pendingTasks = w.dom.pendingTasks) ∧
    ((fetchAnalyticsResume w r2).world.dom.taskName = w.dom.taskName ∧
      (fetchAnalyticsResume w r2).world.dom.taskList = w.dom.taskList) ∧
    (fetchAnalyticsResume (fetchTasksResume w r1).world r2).world.dom
      = (fetchTasksResume (fetchAnalyticsResume w r2).world r1).world.dom ∧
    (fetchTasksResume (fetchAnalyticsResume w r2).world r1).completion
      = (fetchTasksResume w r1).completion ∧
    (fetchAnalyticsResume (fetchTasksResume w r1).world r2).completion
      = (fetchAnalyticsResume w r2).completion := by
  obtain ⟨ys, al1, c1, h1⟩ := fetchTasksResume_effect r1
  obtain ⟨co, po, al2, c2, h2⟩ := fetchAnalyticsResume_effect r2
  simp [h1, h2, pageLoad, fetchTasksStart, fetchAnalyticsStart, sendRequest]

/-- C9: an ok response whose body is not valid JSON makes each of the three
operations end with the parse failure thrown: no alert is shown, the document
(list, analytics texts and input value) is as it was, so no item is appended
and the form is not reset. -/
theorem ok_response_with_invalid_json_throws (w : World) (status : Nat) :
    submitHandler w (.response ⟨true, status, none⟩) =
        ⟨{ dom := w.dom
           alerts := w.alerts
           requests := w.requests ++ [createTaskRequest w.dom.taskName]
           defaultPrevented := true }, .threw .syntaxError⟩ ∧
      fetchTasks w (.response ⟨true, status, none⟩) =
        ⟨{ dom := w.dom
           alerts := w.alerts
           requests := w.requests ++ [getRequest "/api/tasks/"]
           defaultPrevented := w.defaultPrevented }, .threw .syntaxError⟩ ∧
      fetchAnalytics w (.response ⟨true, status, none⟩) =
        ⟨{ dom := w.dom
           alerts := w.alerts
           requests := w.requests ++ [getRequest "/api/analytics/"]
           defaultPrevented := w.defaultPrevented }, .threw .syntaxError⟩ := by
  simp [submitHandler, submitResume, submitStart, fetchTasks, fetchTasksResume,
    fetchTasksStart, fetchAnalytics, fetchAnalyticsResume, fetchAnalyticsStart, sendRequest]

/-- C10: for each of the three operations the `ok` flag alone decides between
two outcomes. A non-ok response, whatever its status and body, gives exactly
one alert with the fixed message of the operation and leaves the whole
document unchanged. An ok response with a well-formed body (a Task, a
TaskListResponse, an AnalyticsResponse of the data model) renders the document
and shows no alert. Both outcomes complete normally. -/
theorem two_outcomes_decided_by_ok (w : World) (status : Nat) :
    (∀ body : Option JSON,
      (submitHandler w (.response ⟨false, status, body⟩)).world.dom = w.dom ∧
      (submitHandler w (.response ⟨false, status, body⟩)).world.alerts
        = w.alerts ++ ["Failed to add task"] ∧
      (submitHandler w (.response ⟨false, status, body⟩)).completion = .normal ∧
      (fetchTasks w (.response ⟨false, status, body⟩)).world.dom = w.dom ∧
      (fetchTasks w (.response ⟨false, status, body⟩)).world.alerts
        = w.alerts ++ ["Failed to fetch tasks"] ∧
      (fetchTasks w (.response ⟨false, status, body⟩)).completion = .normal ∧
      (fetchAnalytics w (.response ⟨false, status, body⟩)).world.dom = w.dom ∧
      (fetchAnalytics w (.response ⟨false, status, body⟩)).world.alerts
        = w.alerts ++ ["Failed to fetch analytics"] ∧
      (fetchAnalytics w (.response ⟨false, status, body⟩)).completion = .normal) ∧
    (∀ (data : JSON) (name : String), taskNameOf data = some name →
      (submitHandler w (.response ⟨true, status, some data⟩)).world.dom
        = { w.dom with taskName := "", taskList := w.dom.taskList ++ [name] } ∧
      (submitHandler w (.response ⟨true, status, some data⟩)).world.alerts = w.alerts ∧
      (submitHandler w (.response ⟨true, status, some data⟩)).completion = .normal) ∧
    (∀ (data : JSON) (names : List String), taskListOf data = some names →
      (fetchTasks w (.response ⟨true, status, some data⟩)).world.dom
        = { w.dom with taskList := w.dom.taskList ++ names } ∧
      (fetchTasks w (.response ⟨true, status, some data⟩)).world.alerts = w.alerts ∧
      (fetchTasks w (.response ⟨true, status, some data⟩)).completion = .normal) ∧
    (∀ (data : JSON) (c p : SafeInteger), analyticsOf data = some (c, p) →
      (fetchAnalytics w (.response ⟨true, status, some data⟩)).world.dom
        = { w.dom with completedTasks := toString c.val, pendingTasks := toString p.val } ∧
      (fetchAnalytics w (.response ⟨true, status, some data⟩)).world.alerts = w.alerts ∧
      (fetchAnalytics w (.response ⟨true, status, some data⟩)).completion = .normal) := by
  refine ⟨?_, ?_, ?_, ?_⟩
  · intro body
    simp [submitHandler, submitResume, submitStart, fetchTasks, fetchTasksResume,
      fetchTasksStart, fetchAnalytics, fetchAnalyticsResume, fetchAnalyticsStart,
      sendRequest, alert]
  · intro data name h
    simp [submitHandler, submitResume, submitStart, sendRequest,
      addTaskToList_of_taskNameOf _ _ _ h, appendListItem, resetForm, defaultTaskName]
  · intro data names h
    cases data with
    | obj ms =>
      simp only [taskListOf] at h
      split at h
      · rename_i tasks hTasks
        have hn := forEachAddTaskToList_names _ _ (forall2_of_taskNamesOf _ _ h)
        simp [fetchTasks, fetchTasksResume, fetchTasksStart, sendRequest, renderTasks,
          JSON.getMember, hTasks, hn]
      · cases h
    | _ => simp [taskListOf] at h
  · intro data c p h
    cases data with
    | obj ms =>
      simp only [analyticsOf] at h
      split at h
      · rename_i c1 p1 hc hp
        split at h
        · rename_i hsafe
          cases h
          simp [fetchAnalytics, fetchAnalyticsResume, fetchAnalyticsStart, sendRequest,
            renderAnalytics, JSON.getMember, hc, hp, domText, JSON.text,
            numberText_safe _ hsafe.1, numberText_safe _ hsafe.2]
        · cases h
      · cases h
    | _ => simp [analyticsOf] at h

/-- Runs of C10 on the scenarios of the spec: the list response
`200 {"tasks":[{"name":"A"},{"name":"B"}]}` is rendered without an alert. -/
theorem two_outcomes_decided_by_ok_witness :
    (fetchTasks ⟨⟨"", [], "0", "0"⟩, [], [], false⟩ (.response ⟨true, 200, some (.obj
        [("tasks", .arr [.obj [("name", .str "A")], .obj [("name", .str "B")]])])⟩)).world.dom
        = ⟨"", ["A", "B"], "0", "0"⟩ ∧
      (fetchTasks ⟨⟨"", [], "0", "0"⟩, [], [], false⟩ (.response ⟨true, 200, some (.obj
        [("tasks", .arr [.obj [("name", .str "A")], .obj [("name", .str "B")]])])⟩)).world.alerts
        = [] ∧
      (fetchTasks ⟨⟨"", [], "0", "0"⟩, [], [], false⟩ (.response ⟨true, 200, some (.obj
        [("tasks", .arr [.obj [("name", .str "A")], .obj [("name", .str "B")]])])⟩)).completion
        = .normal :=
  (two_outcomes_decided_by_ok ⟨⟨"", [], "0", "0"⟩, [], [], false⟩ 200).2.2.1 _ ["A", "B"] rfl

end TaskClient
